import Mathlib

/-!
Formal model of the `sound_factory` module of qaioz/numpy_homework.

The module builds sine-wave sample sequences for musical notes and caches
both the generated time axes (`TimelineFactory`) and the generated waves
(`SoundWaveFactory`) in class-level ordered dictionaries with a bounded
size and insertion-order (FIFO) eviction.

Modelling conventions:
* Python floats are modelled as exact rationals (`ℚ`); the real-valued
  sine pipeline is modelled over `ℝ`.
* Python object identity is modelled by tagging each freshly constructed
  cached object with a fresh natural-number id (a monotone counter per
  cache), mirroring `id()` semantics: two results are "the same object"
  iff their tags agree.
* The two class-level caches (`TimelineFactory.cache` and
  `SoundWaveFactory.cahe` — the typo is the source's) are process-wide
  state, collected in `GlobalState`.
* Python exceptions are modelled by `Except PyError`; an error return
  models a raised exception propagating out of the call.
* `get_soundwave`'s parameters are dynamically typed in Python (and
  `normalize_sound_waves` exploits this by accident); the values that can
  actually flow into them are modelled by `PyVal`.
-/

/-- Python exception kinds that the modelled code can raise.
`emptyInputError` is the error kind named by the design document for
normalizing an empty input; the source never raises it (it is included
only so the specification's statement can be expressed). -/
inductive PyError where
  | attributeError
  | zeroDivisionError
  | typeError
  | unknownNoteError
  | valueError
  | emptyInputError
deriving DecidableEq

/-- Dynamically-typed Python values that flow into `get_soundwave`'s
parameters: strings, numbers, and `Timeline` objects (identified by their
object id, since Python hashes them by identity). -/
inductive PyVal where
  | str : String → PyVal
  | rat : ℚ → PyVal
  | timelineObj : ℕ → PyVal
deriving DecidableEq

/-- Dictionary lookup on an insertion-ordered association list
(models `key in d` / `d[key]` on an `OrderedDict`). -/
def lookup? {κ α : Type} [DecidableEq κ] (k : κ) : List (κ × α) → Option α
  | [] => none
  | e :: es => if e.1 = k then some e.2 else lookup? k es

/-- `CACHE_SIZE = 10**6`, the capacity constant shared (textually) by both
factory classes. -/
def CACHE_SIZE : ℕ := 10 ^ 6

/-- Insert a (fresh) key at the end of the ordered dictionary and then, if
the size exceeds `cap`, remove the oldest entry once — models
`d[key] = v` followed by `if len(d) > CACHE_SIZE: d.popitem(last=False)`. -/
def fifoInsert {κ α : Type} (cap : ℕ) (c : List (κ × α)) (k : κ) (v : α) : List (κ × α) :=
  if cap < (c ++ [(k, v)]).length then (c ++ [(k, v)]).tail else c ++ [(k, v)]

/-- State of one cache: the ordered dictionary (oldest entry first), whose
values are pairs of an object id and the object's value, plus the counter
producing the next fresh object id. -/
structure FactoryState (κ α : Type) where
  cache : List (κ × (ℕ × α))
  nextId : ℕ
deriving DecidableEq

/-- An empty cache. -/
def FactoryState.init (κ α : Type) : FactoryState κ α := ⟨[], 0⟩

/-- Shared lookup-or-create-then-evict logic of both factories: on a hit
return the cached object unchanged; on a miss construct a fresh object
(with a fresh id), append it, and evict the oldest entry if the capacity
is now exceeded. -/
def getOrAdd {κ α : Type} [DecidableEq κ] (cap : ℕ) (mk : κ → α) (s : FactoryState κ α)
    (k : κ) : (ℕ × α) × FactoryState κ α :=
  match lookup? k s.cache with
  | some v => (v, s)
  | none =>
    ((s.nextId, mk k), ⟨fifoInsert cap s.cache k (s.nextId, mk k), s.nextId + 1⟩)

/-- Modelled from the spec: `np.linspace(0, stop, num)` (external library,
not part of the repository). `num` evenly spaced rationals spanning
`[0, stop]` with both endpoints included; the value at index `i` is
`stop * i / (num - 1)` (for `num = 1` the single sample is `0`, which the
formula also yields since division by zero is zero in `ℚ`). -/
def linspace (stop : ℚ) (num : ℕ) : List ℚ :=
  (List.range num).map (fun (i : ℕ) => stop * (i : ℚ) / ((num : ℚ) - 1))

/-- `Timeline`: duration, sampling rate, and the evenly spaced time axis. -/
structure Timeline where
  duration_seconds : ℚ
  sampling_rate : ℕ
  timeline : List ℚ
deriving DecidableEq

/-- `Timeline.__init__`: the axis is `np.linspace(0, duration_seconds,
num=sampling_rate * duration_seconds)`. The sample count is the truncation
of the (possibly fractional) product to a non-negative integer, per the
spec's reading of the numeric-sequence semantics. -/
def Timeline.make (duration_seconds : ℚ) (sampling_rate : ℕ) : Timeline :=
  ⟨duration_seconds, sampling_rate,
    linspace duration_seconds (⌊(sampling_rate : ℚ) * duration_seconds⌋).toNat⟩

/-- `TimelineFactory.get_timeline`: class-level cache keyed by
`(duration_seconds, sampling_rate)`; on a miss a new `Timeline` is built,
inserted, and the oldest entry evicted once if the size exceeds
`CACHE_SIZE`. -/
def TimelineFactory.get_timeline (s : FactoryState (ℚ × ℕ) Timeline) (duration_seconds : ℚ)
    (sampling_rate : ℕ) : (ℕ × Timeline) × FactoryState (ℚ × ℕ) Timeline :=
  getOrAdd CACHE_SIZE (fun k => Timeline.make k.1 k.2) s (duration_seconds, sampling_rate)

/-- Modelled from the spec: the note table of the missing `src/utils.py`.
Maps a note name to its frequency in Hz; the spec fixes `a4 ↦ 440` and
states that an undefined note is an error, so the model keeps the table
minimal. -/
def noteFrequency (note : String) : Option ℚ :=
  lookup? note [(("a4" : String), (440 : ℚ))]

/-- Wrap an integer into the signed 16-bit range by modulo-`2^16`
narrowing, the spec's description of the behaviour of the
`astype(np.int16)` cast for out-of-range values. -/
def wrap16 (n : ℤ) : ℤ := (n + 2 ^ 15) % 2 ^ 16 - 2 ^ 15

/-- Truncation of a real toward zero (the C-style float-to-integer cast
underlying `astype`): floor for non-negative values, ceiling for negative
ones. -/
noncomputable def truncR (x : ℝ) : ℤ := if 0 ≤ x then ⌊x⌋ else ⌈x⌉

/-- Modelled from the spec: `astype(np.int16)` quantization of one raw
sample — a truncating cast followed by modulo-`2^16` narrowing (wrap, not
clamp and not round). -/
noncomputable def astype_int16 (x : ℝ) : ℤ := wrap16 (truncR x)

/-- `SoundWave`: note, amplitude, a shared reference to a timeline object
(id and value), and the eagerly computed quantized samples. -/
structure SoundWave where
  note : String
  amplitude : ℚ
  timeline : ℕ × Timeline
  sound_wave : List ℤ

/-- Modelled from the spec: `utils.get_soundwave` of the missing
`src/utils.py` — looks the note up in the note table (raising on an
unknown note) and returns the raw real-valued samples
`amplitude * sin(2π * frequency * t)` over the given time axis. -/
noncomputable def utils_get_soundwave (timeline : List ℚ) (note : String) (amplitude : ℚ) :
    Except PyError (List ℝ) :=
  match noteFrequency note with
  | none => .error .unknownNoteError
  | some fr =>
    .ok (timeline.map
      (fun (t : ℚ) => (amplitude : ℝ) * Real.sin (2 * Real.pi * (fr : ℝ) * (t : ℝ))))

/-- `SoundWave.__init__`: stores the parameters and eagerly computes
`utils.get_soundwave(...).astype(np.int16)`. -/
noncomputable def SoundWave.make (tl : ℕ × Timeline) (note : String) (amplitude : ℚ) :
    Except PyError SoundWave :=
  match utils_get_soundwave tl.2.timeline note amplitude with
  | .error e => .error e
  | .ok raw => .ok ⟨note, amplitude, tl, raw.map astype_int16⟩

/-- `SoundWaveFactory` instance attributes. `timeline_factory : Option Unit`
records whether the attribute `self.timeline_factory` was ever assigned:
`__init__` assigns it (to a fresh `TimelineFactory()`, which carries no
per-instance state since the cache is class-level) only when the
constructor argument is `None`. -/
structure SoundWaveFactory where
  sampling_rate : ℕ
  default_duration_seconds : ℚ
  max_amplitude : ℚ
  timeline_factory : Option Unit

/-- `SoundWaveFactory.SAVE_TYPE_TXT`. -/
def SoundWaveFactory.SAVE_TYPE_TXT : String := "TXT"

/-- `SoundWaveFactory.SAVE_TYPE_WAV`. -/
def SoundWaveFactory.SAVE_TYPE_WAV : String := "WAV"

/-- `SoundWaveFactory.__init__`: stores the three numeric parameters and
assigns `self.timeline_factory` only in the `timeline_factory is None`
branch; an explicitly supplied factory argument is discarded and the
attribute is left unassigned. -/
def SoundWaveFactory.make (sampling_rate : ℕ) (default_duration_seconds : ℚ)
    (max_amplitude : ℚ) (timeline_factory : Option Unit) : SoundWaveFactory :=
  ⟨sampling_rate, default_duration_seconds, max_amplitude,
    match timeline_factory with
    | none => some ()
    | some _ => none⟩

/-- The process-wide class-level caches: `TimelineFactory.cache` and
`SoundWaveFactory.cahe` (typo as in the source). -/
structure GlobalState where
  tl : FactoryState (ℚ × ℕ) Timeline
  wv : FactoryState (ℕ × PyVal × PyVal × PyVal) SoundWave

/-- Both caches empty. -/
def GlobalState.init : GlobalState := ⟨FactoryState.init _ _, FactoryState.init _ _⟩

/-- `SoundWaveFactory.__get_cache_key`: the 4-tuple
`(self.sampling_rate, note, amplitude, duration_seconds)`. -/
def SoundWaveFactory.get_cache_key (f : SoundWaveFactory)
    (duration_seconds note amplitude : PyVal) : ℕ × PyVal × PyVal × PyVal :=
  (f.sampling_rate, note, amplitude, duration_seconds)

/-- `SoundWaveFactory.__get_from_cache_or_add`: check the wave cache; on a
miss, access `self.timeline_factory` (an `AttributeError` if it was never
assigned), obtain the timeline from the shared timeline cache, build the
`SoundWave` eagerly, insert it, and evict the oldest entry once if the
size exceeds `CACHE_SIZE`. Dynamically ill-typed arguments (as produced by
`normalize_sound_waves`) error: a non-numeric `duration_seconds` makes
`np.linspace` raise inside `Timeline.__init__` (its cache lookup, which
precedes the failure in the source, does not mutate anything), a non-string
note is not a key of the note table, and a non-numeric amplitude cannot be
multiplied with the sample array. -/
noncomputable def SoundWaveFactory.get_from_cache_or_add (f : SoundWaveFactory)
    (g : GlobalState) (duration_seconds note amplitude : PyVal) :
    Except PyError ((ℕ × SoundWave) × GlobalState) :=
  match lookup? (f.get_cache_key duration_seconds note amplitude) g.wv.cache with
  | some v => .ok (v, g)
  | none =>
    match f.timeline_factory with
    | none => .error .attributeError
    | some _ =>
      match duration_seconds with
      | .rat d =>
        match note with
        | .str s =>
          match amplitude with
          | .rat a =>
            match SoundWave.make (TimelineFactory.get_timeline g.tl d f.sampling_rate).1 s a with
            | .error e => .error e
            | .ok w =>
              .ok ((g.wv.nextId, w),
                ⟨(TimelineFactory.get_timeline g.tl d f.sampling_rate).2,
                  ⟨fifoInsert CACHE_SIZE g.wv.cache
                      (f.get_cache_key duration_seconds note amplitude) (g.wv.nextId, w),
                    g.wv.nextId + 1⟩⟩)
          | _ => .error .typeError
        | _ => .error .unknownNoteError
      | _ => .error .typeError

/-- `SoundWaveFactory.get_soundwave(note="a4", duration_seconds=None,
amplitude=None)`: `None` arguments default to the factory's configured
duration and maximum amplitude, then delegate to the cache helper. -/
noncomputable def SoundWaveFactory.get_soundwave (f : SoundWaveFactory) (g : GlobalState)
    (note : PyVal) (duration_seconds amplitude : Option PyVal) :
    Except PyError ((ℕ × SoundWave) × GlobalState) :=
  f.get_from_cache_or_add g (duration_seconds.getD (.rat f.default_duration_seconds)) note
    (amplitude.getD (.rat f.max_amplitude))

/-- Loop body of `normalize_sound_waves`: for each input wave the source
executes `self.get_soundwave(sound_wave.timeline, sound_wave.note,
new_amplitude)` — a positional call, so the `Timeline` object is bound to
the `note` parameter and the note string to the `duration_seconds`
parameter. -/
noncomputable def normalizeLoop (f : SoundWaveFactory) (avg : ℚ) (g : GlobalState) :
    List SoundWave → Except PyError (List (ℕ × SoundWave) × GlobalState)
  | [] => .ok ([], g)
  | w :: ws =>
    match f.get_soundwave g (.timelineObj w.timeline.1) (some (.str w.note))
        (some (.rat avg)) with
    | .error e => .error e
    | .ok (nw, g2) =>
      match normalizeLoop f avg g2 ws with
      | .error e => .error e
      | .ok (rest, g3) => .ok (nw :: rest, g3)

/-- `SoundWaveFactory.normalize_sound_waves`: computes the average
amplitude (`sum(...) / len(...)`, a `ZeroDivisionError` on an empty list),
finds the shortest wave (whose length is bound to an unused variable in
every loop iteration), and regenerates each wave through `get_soundwave`
with the positionally mis-bound arguments of `normalizeLoop`. -/
noncomputable def SoundWaveFactory.normalize_sound_waves (f : SoundWaveFactory)
    (g : GlobalState) (sound_waves : List SoundWave) :
    Except PyError (List (ℕ × SoundWave) × GlobalState) :=
  if sound_waves.length = 0 then .error .zeroDivisionError
  else
    let average_amplitude := (sound_waves.map (fun w => w.amplitude)).sum /
      (sound_waves.length : ℚ)
    let _shortest_length := (sound_waves.map (fun w => w.sound_wave.length)).min?
    normalizeLoop f average_amplitude g sound_waves

/-- Rendering of a rational as decimal-free text, abstracting Python's
`str()` on the numeric duration and amplitude: an integer prints as its
integer part, anything else as numerator-slash-denominator. -/
def ratStr (q : ℚ) : String :=
  if q.den = 1 then toString q.num else toString q.num ++ "/" ++ toString q.den

/-- Python's `str.replace("#", "s")` for the one-character pattern:
replace every `#` by `s`. -/
def replaceHashWithS (s : String) : String :=
  String.mk (s.data.map (fun c => if c = '#' then 's' else c))

/-- `SoundWaveFactory.__generate_file_name`: a falsy (`None` or empty)
caller-supplied name falls back to
`sound_wave_{note}_{duration_seconds}_{amplitude}`; the full path is the
per-mode directory plus name plus extension with every `#` replaced by
`s`; an unrecognized mode raises `ValueError`. Numeric rendering of the
rational duration and amplitude abstracts Python's `str()`. -/
def SoundWaveFactory.generate_file_name (sound_wave : SoundWave) (file_name : Option String)
    (ty : String) : Except PyError String :=
  let name0 := file_name.getD ("")
  let name := if name0 = "" then
      "sound_wave_" ++ sound_wave.note ++ "_" ++
        ratStr sound_wave.timeline.2.duration_seconds ++ "_" ++
        ratStr sound_wave.amplitude
    else name0
  if ty = SoundWaveFactory.SAVE_TYPE_TXT then
    .ok (replaceHashWithS ("sound_text_files/" ++ name ++ ".txt"))
  else if ty = SoundWaveFactory.SAVE_TYPE_WAV then
    .ok (replaceHashWithS ("sound_wav_files/" ++ name ++ ".wav"))
  else .error .valueError

/-- Content of a produced output file: a plain-text numeric dump
(`np.savetxt`) or a PCM WAV file at the factory's sampling rate
(`wavfile.write`). -/
inductive FileContent where
  | txt : List ℤ → FileContent
  | wav : ℕ → List ℤ → FileContent

/-- One file written by `save_wave`: target path and content. -/
structure FileWrite where
  path : String
  content : FileContent

/-- `SoundWaveFactory.save_wave`: derive the file name first (this raises
`ValueError` for an unrecognized mode before anything is written), then
write the samples as text or as WAV. -/
def SoundWaveFactory.save_wave (f : SoundWaveFactory) (sound_wave : SoundWave)
    (file_name : Option String) (ty : String) : Except PyError FileWrite :=
  match SoundWaveFactory.generate_file_name sound_wave file_name ty with
  | .error e => .error e
  | .ok name =>
    if ty = SoundWaveFactory.SAVE_TYPE_TXT then .ok ⟨name, .txt sound_wave.sound_wave⟩
    else if ty = SoundWaveFactory.SAVE_TYPE_WAV then
      .ok ⟨name, .wav f.sampling_rate sound_wave.sound_wave⟩
    else .error .valueError

/-- Substring test: `pat` occurs contiguously in `s`. -/
def strContains (s pat : String) : Bool :=
  s.data.tails.any (fun t => pat.data.isPrefixOf t)

/-- Reachable-cache invariant: the stored object ids are pairwise distinct,
all below the fresh-id counter, and the cache is within capacity. -/
def FactoryState.WF {κ α : Type} (cap : ℕ) (s : FactoryState κ α) : Prop :=
  (s.cache.map (fun e => e.2.1)).Nodup ∧ (∀ e ∈ s.cache, e.2.1 < s.nextId) ∧
    s.cache.length ≤ cap

/-- Fold `TimelineFactory.get_timeline` over a list of keys, tracking the
evolving class-level cache. -/
def runTimeline (ks : List (ℚ × ℕ)) (s : FactoryState (ℚ × ℕ) Timeline) :
    FactoryState (ℚ × ℕ) Timeline :=
  ks.foldl (fun s k => (TimelineFactory.get_timeline s k.1 k.2).2) s

/-- The global state after one `__get_from_cache_or_add` call (unchanged if
the call raised). -/
noncomputable def waveStateAfter (f : SoundWaveFactory) (g : GlobalState)
    (duration_seconds note amplitude : PyVal) : GlobalState :=
  match f.get_from_cache_or_add g duration_seconds note amplitude with
  | .ok p => p.2
  | .error _ => g

/-- Fold `get_soundwave` for note "a4" at the default duration over a list
of amplitudes, tracking the evolving global state. -/
noncomputable def runWave (f : SoundWaveFactory) (amps : List ℚ) (g : GlobalState) :
    GlobalState :=
  amps.foldl (fun g a =>
    match f.get_soundwave g (.str ("a4")) none (some (.rat a)) with
    | .ok p => p.2
    | .error _ => g) g

/-- Wave-cache key of a `get_soundwave` call for note "a4" with the default
duration and amplitude `a`. -/
def waveKey (f : SoundWaveFactory) (a : ℚ) : ℕ × PyVal × PyVal × PyVal :=
  (f.sampling_rate, PyVal.str ("a4"), PyVal.rat a, PyVal.rat f.default_duration_seconds)

/-- `CACHE_SIZE` pairwise distinct timeline-cache keys, all different from
`((0 : ℚ), 1)`. -/
def c2TimelineKeys : List (ℚ × ℕ) :=
  (List.range CACHE_SIZE).map (fun (i : ℕ) => ((i : ℚ) + 1, 1))

/-- `CACHE_SIZE` pairwise distinct amplitudes, all different from `0`. -/
def c2Amps : List ℚ :=
  (List.range CACHE_SIZE).map (fun (i : ℕ) => (i : ℚ) + 1)

/-- A concrete `SoundWave` value for note "a4" (sample data irrelevant to
the properties it witnesses). -/
def w_a4 : SoundWave := ⟨"a4", 100, (0, ⟨5, 44100, []⟩), []⟩

/-- A concrete `SoundWave` value for the sharp note "c#5". -/
def w_csharp5 : SoundWave := ⟨"c#5", 100, (0, ⟨5, 44100, []⟩), []⟩

/-! ### Generic lemmas about the ordered-dictionary caches -/

theorem lookup?_eq_none_iff {κ α : Type} [DecidableEq κ] (k : κ) (c : List (κ × α)) :
    lookup? k c = none ↔ k ∉ c.map Prod.fst := by
  induction c with
  | nil => simp [lookup?]
  | cons e es ih =>
    by_cases h : e.1 = k
    · subst h
      simp [lookup?]
    · simp only [lookup?, if_neg h, List.map_cons, List.mem_cons, ih]
      constructor
      · rintro hnot (rfl | hm)
        · exact h rfl
        · exact hnot hm
      · intro hnot hm
        exact hnot (Or.inr hm)

theorem lookup?_isSome_iff {κ α : Type} [DecidableEq κ] (k : κ) (c : List (κ × α)) :
    (lookup? k c).isSome ↔ k ∈ c.map Prod.fst := by
  rw [← Option.ne_none_iff_isSome, Ne, lookup?_eq_none_iff, Decidable.not_not]

theorem mem_of_lookup?_eq_some {κ α : Type} [DecidableEq κ] {k : κ} {c : List (κ × α)}
    {v : α} (h : lookup? k c = some v) : (k, v) ∈ c := by
  induction c with
  | nil => simp [lookup?] at h
  | cons e es ih =>
    simp only [lookup?] at h
    split at h
    · rename_i hcond
      injection h with h2
      subst h2
      subst hcond
      rw [Prod.mk.eta]
      exact List.mem_cons_self _ _
    · exact List.mem_cons_of_mem _ (ih h)

theorem lookup?_append_of_not_mem {κ α : Type} [DecidableEq κ] {k : κ} {c : List (κ × α)}
    (d : List (κ × α)) (h : k ∉ c.map Prod.fst) : lookup? k (c ++ d) = lookup? k d := by
  induction c with
  | nil => simp
  | cons e es ih =>
    simp only [List.map_cons, List.mem_cons] at h
    push_neg at h
    have : e.1 ≠ k := fun he => h.1 he.symm
    simp only [List.cons_append, lookup?, if_neg this]
    exact ih h.2

theorem lookup?_snoc_self {κ α : Type} [DecidableEq κ] {k : κ} {c : List (κ × α)} (v : α)
    (h : k ∉ c.map Prod.fst) : lookup? k (c ++ [(k, v)]) = some v := by
  rw [lookup?_append_of_not_mem _ h]
  simp [lookup?]

theorem fifoInsert_of_lt {κ α : Type} {cap : ℕ} {c : List (κ × α)} (k : κ) (v : α)
    (h : c.length < cap) : fifoInsert cap c k v = c ++ [(k, v)] := by
  unfold fifoInsert
  rw [if_neg]
  simp only [List.length_append, List.length_singleton]
  omega

theorem fifoInsert_of_ge {κ α : Type} {cap : ℕ} {c : List (κ × α)} (k : κ) (v : α)
    (h : cap ≤ c.length) : fifoInsert cap c k v = (c ++ [(k, v)]).tail := by
  unfold fifoInsert
  rw [if_pos]
  simp only [List.length_append, List.length_singleton]
  omega

theorem fifoInsert_length_le {κ α : Type} {cap : ℕ} {c : List (κ × α)} (k : κ) (v : α)
    (h : c.length ≤ cap) : (fifoInsert cap c k v).length ≤ cap := by
  rcases lt_or_eq_of_le h with hlt | heq
  · rw [fifoInsert_of_lt k v hlt]
    simp only [List.length_append, List.length_singleton]
    omega
  · rw [fifoInsert_of_ge k v (le_of_eq heq.symm)]
    simp only [List.length_tail, List.length_append, List.length_singleton]
    omega

theorem fifoInsert_sublist {κ α : Type} (cap : ℕ) (c : List (κ × α)) (k : κ) (v : α) :
    (fifoInsert cap c k v).Sublist (c ++ [(k, v)]) := by
  unfold fifoInsert
  split
  · exact List.tail_sublist _
  · exact List.Sublist.refl _

theorem fifoInsert_lookup_self {κ α : Type} [DecidableEq κ] {cap : ℕ} {c : List (κ × α)}
    {k : κ} (v : α) (h : k ∉ c.map Prod.fst) (hlen : c.length ≤ cap) (hcap : 0 < cap) :
    lookup? k (fifoInsert cap c k v) = some v := by
  rcases lt_or_eq_of_le hlen with hlt | heq
  · rw [fifoInsert_of_lt k v hlt]
    exact lookup?_snoc_self v h
  · rw [fifoInsert_of_ge k v (le_of_eq heq.symm)]
    cases c with
    | nil => simp at heq; omega
    | cons e es =>
      simp only [List.cons_append, List.tail_cons]
      apply lookup?_snoc_self
      intro hmem
      exact h (by simp [hmem])

theorem FactoryState.WF_init {κ α : Type} (cap : ℕ) :
    (FactoryState.init κ α).WF cap :=
  ⟨by simp [FactoryState.init], by simp [FactoryState.init], by simp [FactoryState.init]⟩

theorem getOrAdd_hit {κ α : Type} [DecidableEq κ] {cap : ℕ} {mk : κ → α}
    {s : FactoryState κ α} {k : κ} {v : ℕ × α} (h : lookup? k s.cache = some v) :
    getOrAdd cap mk s k = (v, s) := by
  simp [getOrAdd, h]

theorem getOrAdd_miss {κ α : Type} [DecidableEq κ] {cap : ℕ} {mk : κ → α}
    {s : FactoryState κ α} {k : κ} (h : lookup? k s.cache = none) :
    getOrAdd cap mk s k =
      ((s.nextId, mk k), ⟨fifoInsert cap s.cache k (s.nextId, mk k), s.nextId + 1⟩) := by
  simp [getOrAdd, h]

theorem getOrAdd_WF {κ α : Type} [DecidableEq κ] {cap : ℕ} {mk : κ → α}
    {s : FactoryState κ α} (k : κ) (hwf : s.WF cap) : ((getOrAdd cap mk s k).2).WF cap := by
  obtain ⟨hnd, hlt, hlen⟩ := hwf
  cases hl : lookup? k s.cache with
  | some v =>
    rw [getOrAdd_hit hl]
    exact ⟨hnd, hlt, hlen⟩
  | none =>
    rw [getOrAdd_miss hl]
    have hsub : (fifoInsert cap s.cache k (s.nextId, mk k)).Sublist
        (s.cache ++ [(k, (s.nextId, mk k))]) := fifoInsert_sublist _ _ _ _
    refine ⟨?_, ?_, fifoInsert_length_le _ _ hlen⟩
    · apply List.Sublist.nodup (List.Sublist.map _ hsub)
      rw [List.map_append]
      rw [List.nodup_append]
      refine ⟨hnd, List.nodup_singleton _, ?_⟩
      intro i hi hj
      simp only [List.map_cons, List.map_nil, List.mem_singleton] at hj
      subst hj
      simp only [List.mem_map] at hi
      obtain ⟨e, he, hei⟩ := hi
      exact absurd hei (Nat.ne_of_lt (hlt e he))
    · intro e he
      have he2 := hsub.mem he
      simp only [List.mem_append, List.mem_singleton] at he2
      rcases he2 with he2 | he2
      · exact Nat.lt_succ_of_lt (hlt e he2)
      · subst he2
        exact Nat.lt_succ_self _

theorem getOrAdd_lookup_self {κ α : Type} [DecidableEq κ] {cap : ℕ} {mk : κ → α}
    {s : FactoryState κ α} (k : κ) (hwf : s.WF cap) (hcap : 0 < cap) :
    lookup? k ((getOrAdd cap mk s k).2).cache = some (getOrAdd cap mk s k).1 := by
  cases hl : lookup? k s.cache with
  | some v =>
    rw [getOrAdd_hit hl]
    exact hl
  | none =>
    rw [getOrAdd_miss hl]
    exact fifoInsert_lookup_self _ ((lookup?_eq_none_iff _ _).1 hl) hwf.2.2 hcap

theorem getOrAdd_id_lt {κ α : Type} [DecidableEq κ] {cap : ℕ} {mk : κ → α}
    {s : FactoryState κ α} (k : κ) (hwf : s.WF cap) :
    ((getOrAdd cap mk s k).1).1 < ((getOrAdd cap mk s k).2).nextId := by
  cases hl : lookup? k s.cache with
  | some v =>
    rw [getOrAdd_hit hl]
    exact hwf.2.1 _ (mem_of_lookup?_eq_some hl)
  | none =>
    rw [getOrAdd_miss hl]
    exact Nat.lt_succ_self _

theorem getOrAdd_ids_diff {κ α : Type} [DecidableEq κ] {cap : ℕ} {mk : κ → α}
    {s : FactoryState κ α} {k k2 : κ} (hwf : s.WF cap) (hcap : 0 < cap) (hne : k ≠ k2) :
    ((getOrAdd cap mk ((getOrAdd cap mk s k).2) k2).1).1 ≠ ((getOrAdd cap mk s k).1).1 := by
  have hwf1 : ((getOrAdd cap mk s k).2).WF cap := getOrAdd_WF k hwf
  have hself : lookup? k ((getOrAdd cap mk s k).2).cache = some (getOrAdd cap mk s k).1 :=
    getOrAdd_lookup_self k hwf hcap
  cases hl2 : lookup? k2 ((getOrAdd cap mk s k).2).cache with
  | some v2 =>
    rw [getOrAdd_hit hl2]
    intro heq
    have h1 : (k, (getOrAdd cap mk s k).1) ∈ ((getOrAdd cap mk s k).2).cache :=
      mem_of_lookup?_eq_some hself
    have h2 : (k2, v2) ∈ ((getOrAdd cap mk s k).2).cache := mem_of_lookup?_eq_some hl2
    have h3 := List.inj_on_of_nodup_map hwf1.1 h2 h1 heq
    exact hne (congrArg Prod.fst h3).symm
  | none =>
    rw [getOrAdd_miss hl2]
    have hlt : ((getOrAdd cap mk s k).1).1 < ((getOrAdd cap mk s k).2).nextId :=
      getOrAdd_id_lt k hwf
    exact fun heq => absurd heq.symm (Nat.ne_of_lt hlt)

theorem getOrAdd_keys_miss_lt {κ α : Type} [DecidableEq κ] {cap : ℕ} {mk : κ → α}
    {s : FactoryState κ α} {k : κ} (hmiss : k ∉ s.cache.map Prod.fst)
    (hlen : s.cache.length < cap) :
    ((getOrAdd cap mk s k).2).cache.map Prod.fst = s.cache.map Prod.fst ++ [k] := by
  rw [getOrAdd_miss ((lookup?_eq_none_iff _ _).2 hmiss), fifoInsert_of_lt _ _ hlen]
  simp

theorem getOrAdd_keys_miss_ge {κ α : Type} [DecidableEq κ] {cap : ℕ} {mk : κ → α}
    {s : FactoryState κ α} {k : κ} (hmiss : k ∉ s.cache.map Prod.fst)
    (hlen : cap ≤ s.cache.length) :
    ((getOrAdd cap mk s k).2).cache.map Prod.fst = (s.cache.map Prod.fst ++ [k]).tail := by
  rw [getOrAdd_miss ((lookup?_eq_none_iff _ _).2 hmiss), fifoInsert_of_ge _ _ hlen]
  cases hc : s.cache with
  | nil => simp
  | cons e es => simp

theorem get_timeline_length_le (s : FactoryState (ℚ × ℕ) Timeline) (d : ℚ) (r : ℕ)
    (h : s.cache.length ≤ CACHE_SIZE) :
    ((TimelineFactory.get_timeline s d r).2).cache.length ≤ CACHE_SIZE := by
  unfold TimelineFactory.get_timeline
  cases hl : lookup? (d, r) s.cache with
  | some v => rw [getOrAdd_hit hl]; exact h
  | none => rw [getOrAdd_miss hl]; exact fifoInsert_length_le _ _ h

theorem runTimeline_fresh (ks : List (ℚ × ℕ)) :
    ∀ s : FactoryState (ℚ × ℕ) Timeline, ks.Nodup →
      (∀ k ∈ ks, k ∉ s.cache.map Prod.fst) →
      s.cache.length + ks.length ≤ CACHE_SIZE →
      (runTimeline ks s).cache.map Prod.fst = s.cache.map Prod.fst ++ ks := by
  induction ks with
  | nil =>
    intro s _ _ _
    simp [runTimeline]
  | cons k rest ih =>
    intro s hnd hfresh hlen
    have hk : k ∉ s.cache.map Prod.fst := hfresh k (List.mem_cons_self _ _)
    have hlt : s.cache.length < CACHE_SIZE := by
      simp only [List.length_cons] at hlen
      omega
    have hstep : ((TimelineFactory.get_timeline s k.1 k.2).2).cache.map Prod.fst
        = s.cache.map Prod.fst ++ [k] := by
      unfold TimelineFactory.get_timeline
      rw [Prod.mk.eta]
      exact getOrAdd_keys_miss_lt hk hlt
    have hrun : runTimeline (k :: rest) s
        = runTimeline rest (TimelineFactory.get_timeline s k.1 k.2).2 := by
      simp [runTimeline]
    have hnd2 : rest.Nodup := (List.nodup_cons.1 hnd).2
    have hk_rest : k ∉ rest := (List.nodup_cons.1 hnd).1
    have hfresh2 : ∀ k2 ∈ rest,
        k2 ∉ ((TimelineFactory.get_timeline s k.1 k.2).2).cache.map Prod.fst := by
      intro k2 hk2
      rw [hstep]
      simp only [List.mem_append, List.mem_singleton]
      rintro (hmem | rfl)
      · exact hfresh k2 (List.mem_cons_of_mem _ hk2) hmem
      · exact hk_rest hk2
    have hccount : ((TimelineFactory.get_timeline s k.1 k.2).2).cache.length
        = s.cache.length + 1 := by
      have hc := congrArg List.length hstep
      simpa using hc
    have hlen2 : ((TimelineFactory.get_timeline s k.1 k.2).2).cache.length + rest.length
        ≤ CACHE_SIZE := by
      simp only [List.length_cons] at hlen
      omega
    rw [hrun, ih _ hnd2 hfresh2 hlen2, hstep]
    simp

theorem runTimeline_scenario (k : ℚ × ℕ) (rest : List (ℚ × ℕ))
    (hnd : (k :: rest).Nodup) (hlen : rest.length = CACHE_SIZE) :
    lookup? k ((runTimeline (k :: rest) (FactoryState.init _ _)).cache) = none ∧
      ∀ k2 ∈ rest,
        (lookup? k2 ((runTimeline (k :: rest) (FactoryState.init _ _)).cache)).isSome := by
  have hne : rest ≠ [] := by
    intro h
    rw [h] at hlen
    norm_num [CACHE_SIZE] at hlen
  rcases List.eq_nil_or_concat rest with h | ⟨front, klast, rfl⟩
  · exact absurd h hne
  rw [List.concat_eq_append] at *
  have hsplit : k :: (front ++ [klast]) = (k :: front) ++ [klast] := by simp
  have hfrontlen : front.length + 1 = CACHE_SIZE := by
    simpa using hlen
  -- decompose the Nodup hypothesis
  rw [hsplit] at hnd
  rw [List.nodup_append] at hnd
  obtain ⟨hnd1, _, hdisj⟩ := hnd
  have hklast : klast ∉ k :: front := by
    intro hmem
    exact hdisj hmem (List.mem_singleton_self _)
  -- the run over the first CACHE_SIZE keys fills the cache exactly
  have hmid : ((runTimeline (k :: front) (FactoryState.init _ _)).cache).map Prod.fst
      = k :: front := by
    have := runTimeline_fresh (k :: front) (FactoryState.init _ _) hnd1
      (by simp [FactoryState.init]) (by simp [FactoryState.init]; omega)
    simpa [FactoryState.init] using this
  have hmidlen : ((runTimeline (k :: front) (FactoryState.init _ _)).cache).length
      = CACHE_SIZE := by
    have hc := congrArg List.length hmid
    simp only [List.length_map, List.length_cons] at hc
    omega
  -- the final insertion evicts the first-inserted key
  have hlast : ((runTimeline ((k :: front) ++ [klast]) (FactoryState.init _ _)).cache).map
      Prod.fst = front ++ [klast] := by
    have hfold : runTimeline ((k :: front) ++ [klast]) (FactoryState.init _ _)
        = (TimelineFactory.get_timeline (runTimeline (k :: front) (FactoryState.init _ _))
            klast.1 klast.2).2 := by
      simp [runTimeline, List.foldl_append]
    rw [hfold]
    have hkeys : ((TimelineFactory.get_timeline
        (runTimeline (k :: front) (FactoryState.init _ _)) klast.1 klast.2).2).cache.map
          Prod.fst
        = (((runTimeline (k :: front) (FactoryState.init _ _)).cache).map Prod.fst
            ++ [klast]).tail := by
      unfold TimelineFactory.get_timeline
      rw [Prod.mk.eta]
      apply getOrAdd_keys_miss_ge
      · rw [hmid]
        exact hklast
      · omega
    rw [hkeys, hmid]
    simp
  rw [← hsplit] at hlast
  constructor
  · rw [lookup?_eq_none_iff, hlast]
    simp only [List.mem_append, List.mem_singleton]
    rintro (hmem | rfl)
    · exact (List.nodup_cons.1 hnd1).1 hmem
    · exact hklast (List.mem_cons_self _ _)
  · intro k2 hk2
    rw [lookup?_isSome_iff, hlast]
    exact hk2

theorem noteFrequency_a4 : noteFrequency ("a4") = some 440 := rfl

theorem get_soundwave_default_eq (f : SoundWaveFactory) (g : GlobalState) (a : ℚ) :
    f.get_soundwave g (.str ("a4")) none (some (.rat a))
      = f.get_from_cache_or_add g (.rat f.default_duration_seconds) (.str ("a4"))
          (.rat a) := rfl

theorem waveKey_eq_cache_key (f : SoundWaveFactory) (a : ℚ) :
    f.get_cache_key (.rat f.default_duration_seconds) (.str ("a4")) (.rat a)
      = waveKey f a := rfl

theorem get_from_cache_or_add_hit {f : SoundWaveFactory} {g : GlobalState}
    {d note amp : PyVal} {v : ℕ × SoundWave}
    (h : lookup? (f.get_cache_key d note amp) g.wv.cache = some v) :
    f.get_from_cache_or_add g d note amp = .ok (v, g) := by
  unfold SoundWaveFactory.get_from_cache_or_add
  rw [h]

theorem get_from_cache_or_add_miss_ok {f : SoundWaveFactory} {g : GlobalState}
    {d a fr : ℚ} {s : String}
    (hmiss : lookup? (f.get_cache_key (.rat d) (.str s) (.rat a)) g.wv.cache = none)
    (htf : f.timeline_factory = some ()) (hfr : noteFrequency s = some fr) :
    ∃ w : SoundWave,
      f.get_from_cache_or_add g (.rat d) (.str s) (.rat a) =
        .ok ((g.wv.nextId, w),
          ⟨(TimelineFactory.get_timeline g.tl d f.sampling_rate).2,
            ⟨fifoInsert CACHE_SIZE g.wv.cache (f.get_cache_key (.rat d) (.str s) (.rat a))
                (g.wv.nextId, w), g.wv.nextId + 1⟩⟩) := by
  refine ⟨⟨s, a, (TimelineFactory.get_timeline g.tl d f.sampling_rate).1,
    (((TimelineFactory.get_timeline g.tl d f.sampling_rate).1).2.timeline.map
      (fun (t : ℚ) => (a : ℝ) * Real.sin (2 * Real.pi * (fr : ℝ) * (t : ℝ)))).map
      astype_int16⟩, ?_⟩
  simp only [SoundWaveFactory.get_from_cache_or_add, hmiss, htf, SoundWave.make,
    utils_get_soundwave, hfr]

theorem get_from_cache_or_add_wv_cases {f : SoundWaveFactory} {g : GlobalState}
    {d note amp : PyVal} {p : (ℕ × SoundWave) × GlobalState}
    (hp : f.get_from_cache_or_add g d note amp = .ok p) :
    p.2.wv.cache = g.wv.cache ∨
      ∃ v, p.2.wv.cache = fifoInsert CACHE_SIZE g.wv.cache (f.get_cache_key d note amp) v := by
  unfold SoundWaveFactory.get_from_cache_or_add at hp
  repeat' split at hp
  all_goals first
    | (injection hp with h
       subst h
       left
       rfl)
    | (injection hp with h
       subst h
       right
       exact ⟨_, rfl⟩)
    | injection hp

theorem waveStateAfter_wv_length_le (f : SoundWaveFactory) (g : GlobalState)
    (d note amp : PyVal) (h : g.wv.cache.length ≤ CACHE_SIZE) :
    (waveStateAfter f g d note amp).wv.cache.length ≤ CACHE_SIZE := by
  unfold waveStateAfter
  cases hg : f.get_from_cache_or_add g d note amp with
  | error e => exact h
  | ok p =>
    rcases get_from_cache_or_add_wv_cases hg with hc | ⟨v, hc⟩
    · rw [hc]; exact h
    · rw [hc]; exact fifoInsert_length_le _ _ h

theorem waveKey_injective (f : SoundWaveFactory) {a b : ℚ} (h : waveKey f a = waveKey f b) :
    a = b := by
  simp only [waveKey, Prod.mk.injEq, PyVal.rat.injEq] at h
  exact h.2.2.1

theorem map_fst_fifoInsert_lt {κ α : Type} {cap : ℕ} {c : List (κ × α)} (k : κ) (v : α)
    (h : c.length < cap) : (fifoInsert cap c k v).map Prod.fst = c.map Prod.fst ++ [k] := by
  rw [fifoInsert_of_lt _ _ h]
  simp

theorem map_fst_fifoInsert_ge {κ α : Type} {cap : ℕ} {c : List (κ × α)} (k : κ) (v : α)
    (h : cap ≤ c.length) :
    (fifoInsert cap c k v).map Prod.fst = (c.map Prod.fst ++ [k]).tail := by
  rw [fifoInsert_of_ge _ _ h]
  cases c <;> simp

theorem runWave_fresh (f : SoundWaveFactory) (amps : List ℚ) :
    ∀ g : GlobalState, f.timeline_factory = some () → amps.Nodup →
      (∀ a ∈ amps, waveKey f a ∉ g.wv.cache.map Prod.fst) →
      g.wv.cache.length + amps.length ≤ CACHE_SIZE →
      (runWave f amps g).wv.cache.map Prod.fst
        = g.wv.cache.map Prod.fst ++ amps.map (waveKey f) := by
  induction amps with
  | nil =>
    intro g _ _ _ _
    simp [runWave]
  | cons a rest ih =>
    intro g htf hnd hfresh hlen
    have hka : waveKey f a ∉ g.wv.cache.map Prod.fst := hfresh a (List.mem_cons_self _ _)
    have hmiss : lookup? (f.get_cache_key (.rat f.default_duration_seconds) (.str ("a4"))
        (.rat a)) g.wv.cache = none := by
      rw [waveKey_eq_cache_key]
      exact (lookup?_eq_none_iff _ _).2 hka
    obtain ⟨w, hw⟩ := get_from_cache_or_add_miss_ok hmiss htf noteFrequency_a4
    have hlt : g.wv.cache.length < CACHE_SIZE := by
      simp only [List.length_cons] at hlen
      omega
    set g1 : GlobalState :=
      ⟨(TimelineFactory.get_timeline g.tl f.default_duration_seconds f.sampling_rate).2,
        ⟨fifoInsert CACHE_SIZE g.wv.cache (f.get_cache_key (.rat f.default_duration_seconds)
            (.str ("a4")) (.rat a)) (g.wv.nextId, w), g.wv.nextId + 1⟩⟩ with hg1
    have hrun : runWave f (a :: rest) g = runWave f rest g1 := by
      simp only [runWave, List.foldl_cons]
      rw [get_soundwave_default_eq, hw]
    have hkeys1 : g1.wv.cache.map Prod.fst = g.wv.cache.map Prod.fst ++ [waveKey f a] := by
      rw [hg1]
      rw [show (⟨(TimelineFactory.get_timeline g.tl f.default_duration_seconds
          f.sampling_rate).2,
        ⟨fifoInsert CACHE_SIZE g.wv.cache (f.get_cache_key (.rat f.default_duration_seconds)
            (.str ("a4")) (.rat a)) (g.wv.nextId, w), g.wv.nextId + 1⟩⟩ : GlobalState).wv.cache
          = fifoInsert CACHE_SIZE g.wv.cache (f.get_cache_key (.rat f.default_duration_seconds)
            (.str ("a4")) (.rat a)) (g.wv.nextId, w) from rfl]
      rw [waveKey_eq_cache_key]
      exact map_fst_fifoInsert_lt _ _ hlt
    have hnd2 : rest.Nodup := (List.nodup_cons.1 hnd).2
    have ha_rest : a ∉ rest := (List.nodup_cons.1 hnd).1
    have hfresh2 : ∀ b ∈ rest, waveKey f b ∉ g1.wv.cache.map Prod.fst := by
      intro b hb
      rw [hkeys1]
      simp only [List.mem_append, List.mem_singleton]
      rintro (hmem | heq)
      · exact hfresh b (List.mem_cons_of_mem _ hb) hmem
      · exact ha_rest ((waveKey_injective f heq) ▸ hb)
    have hlen1 : g1.wv.cache.length = g.wv.cache.length + 1 := by
      have hc := congrArg List.length hkeys1
      simpa using hc
    have hlen2 : g1.wv.cache.length + rest.length ≤ CACHE_SIZE := by
      simp only [List.length_cons] at hlen
      omega
    rw [hrun, ih g1 htf hnd2 hfresh2 hlen2, hkeys1]
    simp

theorem runWave_append (f : SoundWaveFactory) (l1 l2 : List ℚ) (g : GlobalState) :
    runWave f (l1 ++ l2) g = runWave f l2 (runWave f l1 g) := by
  simp [runWave, List.foldl_append]

theorem runWave_singleton (f : SoundWaveFactory) (b : ℚ) (g : GlobalState) :
    runWave f [b] g =
      match f.get_soundwave g (.str ("a4")) none (some (.rat b)) with
      | .ok p => p.2
      | .error _ => g := by
  simp [runWave]

theorem runWave_scenario (f : SoundWaveFactory) (a : ℚ) (amps : List ℚ)
    (htf : f.timeline_factory = some ())
    (hnd : (a :: amps).Nodup) (hlen : amps.length = CACHE_SIZE) :
    lookup? (waveKey f a) ((runWave f (a :: amps) GlobalState.init).wv.cache) = none ∧
      ∀ b ∈ amps,
        (lookup? (waveKey f b) ((runWave f (a :: amps) GlobalState.init).wv.cache)).isSome := by
  have hne : amps ≠ [] := by
    intro h
    rw [h] at hlen
    norm_num [CACHE_SIZE] at hlen
  rcases List.eq_nil_or_concat amps with h | ⟨front, blast, rfl⟩
  · exact absurd h hne
  rw [List.concat_eq_append] at *
  have hsplit : a :: (front ++ [blast]) = (a :: front) ++ [blast] := by simp
  have hfrontlen : front.length + 1 = CACHE_SIZE := by
    simpa using hlen
  rw [hsplit] at hnd
  rw [List.nodup_append] at hnd
  obtain ⟨hnd1, _, hdisj⟩ := hnd
  have hblast : blast ∉ a :: front := by
    intro hmem
    exact hdisj hmem (List.mem_singleton_self _)
  have hmid : ((runWave f (a :: front) GlobalState.init).wv.cache).map Prod.fst
      = (a :: front).map (waveKey f) := by
    have := runWave_fresh f (a :: front) GlobalState.init htf hnd1
      (by simp [GlobalState.init, FactoryState.init])
      (by simp [GlobalState.init, FactoryState.init]; omega)
    simpa [GlobalState.init, FactoryState.init] using this
  have hmidlen : ((runWave f (a :: front) GlobalState.init).wv.cache).length
      = CACHE_SIZE := by
    have hc := congrArg List.length hmid
    simp only [List.length_map, List.length_cons] at hc
    omega
  have hmiss_last : waveKey f blast
      ∉ ((runWave f (a :: front) GlobalState.init).wv.cache).map Prod.fst := by
    rw [hmid]
    intro hmem
    simp only [List.mem_map] at hmem
    obtain ⟨b, hb, hbeq⟩ := hmem
    exact hblast ((waveKey_injective f hbeq) ▸ hb)
  obtain ⟨w, hw⟩ := get_from_cache_or_add_miss_ok
    (by rw [waveKey_eq_cache_key]; exact (lookup?_eq_none_iff _ _).2 hmiss_last) htf
    noteFrequency_a4
  have hfold : runWave f ((a :: front) ++ [blast]) GlobalState.init
      = ⟨(TimelineFactory.get_timeline (runWave f (a :: front) GlobalState.init).tl
            f.default_duration_seconds f.sampling_rate).2,
          ⟨fifoInsert CACHE_SIZE ((runWave f (a :: front) GlobalState.init).wv.cache)
              (f.get_cache_key (.rat f.default_duration_seconds) (.str ("a4")) (.rat blast))
              ((runWave f (a :: front) GlobalState.init).wv.nextId, w),
            (runWave f (a :: front) GlobalState.init).wv.nextId + 1⟩⟩ := by
    rw [runWave_append, runWave_singleton, get_soundwave_default_eq, hw]
  have hkeysfin : ((runWave f ((a :: front) ++ [blast]) GlobalState.init).wv.cache).map
      Prod.fst = (front ++ [blast]).map (waveKey f) := by
    rw [hfold]
    rw [show (⟨(TimelineFactory.get_timeline (runWave f (a :: front) GlobalState.init).tl
            f.default_duration_seconds f.sampling_rate).2,
          ⟨fifoInsert CACHE_SIZE ((runWave f (a :: front) GlobalState.init).wv.cache)
              (f.get_cache_key (.rat f.default_duration_seconds) (.str ("a4")) (.rat blast))
              ((runWave f (a :: front) GlobalState.init).wv.nextId, w),
            (runWave f (a :: front) GlobalState.init).wv.nextId + 1⟩⟩ : GlobalState).wv.cache
        = fifoInsert CACHE_SIZE ((runWave f (a :: front) GlobalState.init).wv.cache)
            (f.get_cache_key (.rat f.default_duration_seconds) (.str ("a4")) (.rat blast))
            ((runWave f (a :: front) GlobalState.init).wv.nextId, w) from rfl]
    rw [waveKey_eq_cache_key, map_fst_fifoInsert_ge _ _ (by omega), hmid]
    simp
  rw [← hsplit] at hkeysfin
  constructor
  · rw [lookup?_eq_none_iff, hkeysfin]
    intro hmem
    simp only [List.mem_map] at hmem
    obtain ⟨b, hb, hbeq⟩ := hmem
    have hab : b = a := waveKey_injective f hbeq
    subst hab
    simp only [List.mem_append, List.mem_singleton] at hb
    rcases hb with hb | rfl
    · exact (List.nodup_cons.1 hnd1).1 hb
    · exact hblast (List.mem_cons_self _ _)
  · intro b hb
    rw [lookup?_isSome_iff, hkeysfin]
    exact List.mem_map_of_mem _ hb

theorem cache_size_pos : 0 < CACHE_SIZE := by norm_num [CACHE_SIZE]

theorem get_from_cache_or_add_lookup_self {f : SoundWaveFactory} {g : GlobalState}
    {d note amp : PyVal} {p : (ℕ × SoundWave) × GlobalState}
    (hlen : g.wv.cache.length ≤ CACHE_SIZE)
    (hp : f.get_from_cache_or_add g d note amp = .ok p) :
    lookup? (f.get_cache_key d note amp) p.2.wv.cache = some p.1 := by
  unfold SoundWaveFactory.get_from_cache_or_add at hp
  repeat' split at hp
  all_goals first
    | (injection hp with h
       subst h
       assumption)
    | (injection hp with h
       subst h
       exact fifoInsert_lookup_self _ ((lookup?_eq_none_iff _ _).1 (by assumption)) hlen
         cache_size_pos)
    | injection hp

theorem get_from_cache_or_add_ok_exists {f : SoundWaveFactory} {g : GlobalState}
    {d a fr : ℚ} {s : String} (htf : f.timeline_factory = some ())
    (hfr : noteFrequency s = some fr) :
    ∃ p, f.get_from_cache_or_add g (.rat d) (.str s) (.rat a) = .ok p := by
  cases hl : lookup? (f.get_cache_key (.rat d) (.str s) (.rat a)) g.wv.cache with
  | some v => exact ⟨(v, g), get_from_cache_or_add_hit hl⟩
  | none =>
    obtain ⟨w, hw⟩ := get_from_cache_or_add_miss_ok hl htf hfr
    exact ⟨_, hw⟩

/-! ### Claim theorems -/

/-- C1: for every pair of calls with value-equal arguments the caches
return the identical cached instance — a repeated `get_timeline` with the
same `(duration_seconds, sampling_rate)` returns the very same `Timeline`
object, while a differing argument pair yields a different object; a
repeated `get_soundwave` with equal `(note, duration_seconds, amplitude)`
on a factory with a fixed sampling rate returns the very same `SoundWave`
object; and the wave cache is keyed by the full tuple including the
factory's sampling rate. -/
theorem claim_cache_identity :
    (∀ (s : FactoryState (ℚ × ℕ) Timeline) (d : ℚ) (r : ℕ), s.WF CACHE_SIZE →
        (TimelineFactory.get_timeline ((TimelineFactory.get_timeline s d r).2) d r).1
          = (TimelineFactory.get_timeline s d r).1) ∧
    (∀ (s : FactoryState (ℚ × ℕ) Timeline) (d d2 : ℚ) (r r2 : ℕ), s.WF CACHE_SIZE →
        (d, r) ≠ (d2, r2) →
        ((TimelineFactory.get_timeline ((TimelineFactory.get_timeline s d r).2) d2 r2).1).1
          ≠ ((TimelineFactory.get_timeline s d r).1).1) ∧
    (∀ (f : SoundWaveFactory) (g : GlobalState) (s : String) (d a fr : ℚ),
        g.wv.cache.length ≤ CACHE_SIZE → f.timeline_factory = some () →
        noteFrequency s = some fr →
        ∃ p, f.get_soundwave g (.str s) (some (.rat d)) (some (.rat a)) = .ok p ∧
          f.get_soundwave p.2 (.str s) (some (.rat d)) (some (.rat a)) = .ok (p.1, p.2)) ∧
    (∀ (f : SoundWaveFactory) (d note amp : PyVal),
        f.get_cache_key d note amp = (f.sampling_rate, note, amp, d)) := by
  refine ⟨?_, ?_, ?_, ?_⟩
  · intro s d r hwf
    unfold TimelineFactory.get_timeline
    rw [getOrAdd_hit (getOrAdd_lookup_self _ hwf cache_size_pos)]
  · intro s d d2 r r2 hwf hne
    unfold TimelineFactory.get_timeline
    exact getOrAdd_ids_diff hwf cache_size_pos hne
  · intro f g s d a fr hlen htf hfr
    obtain ⟨p, hp⟩ :
        ∃ p, f.get_from_cache_or_add g (.rat d) (.str s) (.rat a) = .ok p :=
      get_from_cache_or_add_ok_exists htf hfr
    refine ⟨p, hp, ?_⟩
    exact get_from_cache_or_add_hit (get_from_cache_or_add_lookup_self hlen hp)
  · intro f d note amp
    rfl

/-- C2: the cache size never exceeds the configured capacity `CACHE_SIZE`
after any get on either cache, and eviction is insertion-order: feeding
`CACHE_SIZE + 1` pairwise distinct keys into an empty cache turns exactly
the first-inserted key into a subsequent miss while every other key
remains a hit, for the timeline cache and for the wave cache alike. -/
theorem claim_cache_capacity_fifo :
    (∀ (s : FactoryState (ℚ × ℕ) Timeline) (d : ℚ) (r : ℕ),
        s.cache.length ≤ CACHE_SIZE →
        ((TimelineFactory.get_timeline s d r).2).cache.length ≤ CACHE_SIZE) ∧
    (∀ (f : SoundWaveFactory) (g : GlobalState) (d note amp : PyVal),
        g.wv.cache.length ≤ CACHE_SIZE →
        (waveStateAfter f g d note amp).wv.cache.length ≤ CACHE_SIZE) ∧
    (∀ (k : ℚ × ℕ) (rest : List (ℚ × ℕ)), (k :: rest).Nodup → rest.length = CACHE_SIZE →
        lookup? k ((runTimeline (k :: rest) (FactoryState.init _ _)).cache) = none ∧
          ∀ k2 ∈ rest, (lookup? k2 ((runTimeline (k :: rest)
            (FactoryState.init _ _)).cache)).isSome) ∧
    (∀ (f : SoundWaveFactory) (a : ℚ) (amps : List ℚ), f.timeline_factory = some () →
        (a :: amps).Nodup → amps.length = CACHE_SIZE →
        lookup? (waveKey f a) ((runWave f (a :: amps) GlobalState.init).wv.cache) = none ∧
          ∀ b ∈ amps, (lookup? (waveKey f b)
            ((runWave f (a :: amps) GlobalState.init).wv.cache)).isSome) :=
  ⟨get_timeline_length_le, waveStateAfter_wv_length_le, runTimeline_scenario, runWave_scenario⟩

theorem claim_cache_identity_witness :
    ((TimelineFactory.get_timeline ((TimelineFactory.get_timeline (FactoryState.init _ _)
        5 44100).2) 5 44100).1
      = (TimelineFactory.get_timeline (FactoryState.init _ _) 5 44100).1) ∧
    (((TimelineFactory.get_timeline ((TimelineFactory.get_timeline (FactoryState.init _ _)
        5 44100).2) 3 44100).1).1
      ≠ ((TimelineFactory.get_timeline (FactoryState.init _ _) 5 44100).1).1) ∧
    (∃ p, (SoundWaveFactory.make 44100 5 8192 none).get_soundwave GlobalState.init
        (.str ("a4")) (some (.rat 5)) (some (.rat 8192)) = .ok p ∧
      (SoundWaveFactory.make 44100 5 8192 none).get_soundwave p.2
        (.str ("a4")) (some (.rat 5)) (some (.rat 8192)) = .ok (p.1, p.2)) ∧
    ((SoundWaveFactory.make 44100 5 8192 none).get_cache_key (.rat 5) (.str ("a4"))
        (.rat 8192) = (44100, .str ("a4"), .rat 8192, .rat 5)) :=
  ⟨claim_cache_identity.1 _ 5 44100 (FactoryState.WF_init _),
   claim_cache_identity.2.1 _ 5 3 44100 44100 (FactoryState.WF_init _) (by decide),
   claim_cache_identity.2.2.1 _ _ ("a4") 5 8192 440
     (by simp [GlobalState.init, FactoryState.init]) rfl rfl,
   claim_cache_identity.2.2.2 _ _ _ _⟩

theorem claim_cache_capacity_fifo_witness :
    (((TimelineFactory.get_timeline (FactoryState.init _ _) 5 44100).2).cache.length
        ≤ CACHE_SIZE) ∧
    ((waveStateAfter (SoundWaveFactory.make 44100 5 8192 none) GlobalState.init
        (.rat 5) (.str ("a4")) (.rat 8192)).wv.cache.length ≤ CACHE_SIZE) ∧
    (lookup? ((0 : ℚ), 1) ((runTimeline (((0 : ℚ), 1) :: c2TimelineKeys)
        (FactoryState.init _ _)).cache) = none ∧
      (lookup? ((1 : ℚ), 1) ((runTimeline (((0 : ℚ), 1) :: c2TimelineKeys)
        (FactoryState.init _ _)).cache)).isSome) ∧
    (lookup? (waveKey (SoundWaveFactory.make 44100 5 8192 none) 0)
        ((runWave (SoundWaveFactory.make 44100 5 8192 none) (0 :: c2Amps)
          GlobalState.init).wv.cache) = none ∧
      (lookup? (waveKey (SoundWaveFactory.make 44100 5 8192 none) 1)
        ((runWave (SoundWaveFactory.make 44100 5 8192 none) (0 :: c2Amps)
          GlobalState.init).wv.cache)).isSome) := by
  have hinj_t : Function.Injective (fun (i : ℕ) => ((i : ℚ) + 1, (1 : ℕ))) := by
    intro x y hxy
    simp only [Prod.mk.injEq] at hxy
    have hq : (x : ℚ) = y := by linarith [hxy.1]
    exact_mod_cast hq
  have hinj_a : Function.Injective (fun (i : ℕ) => (i : ℚ) + 1) := by
    intro x y hxy
    simp only at hxy
    have hq : (x : ℚ) = y := by linarith
    exact_mod_cast hq
  have hnd_t : (((0 : ℚ), 1) :: c2TimelineKeys).Nodup := by
    rw [List.nodup_cons]
    refine ⟨?_, List.Nodup.map hinj_t (List.nodup_range _)⟩
    intro hmem
    simp only [c2TimelineKeys, List.mem_map] at hmem
    obtain ⟨i, _, hi⟩ := hmem
    simp only [Prod.mk.injEq] at hi
    have h1 : (i : ℚ) + 1 = 0 := hi.1
    have h2 : (0 : ℚ) ≤ (i : ℚ) := by positivity
    linarith
  have hnd_a : ((0 : ℚ) :: c2Amps).Nodup := by
    rw [List.nodup_cons]
    refine ⟨?_, List.Nodup.map hinj_a (List.nodup_range _)⟩
    intro hmem
    simp only [c2Amps, List.mem_map] at hmem
    obtain ⟨i, _, hi⟩ := hmem
    have h2 : (0 : ℚ) ≤ (i : ℚ) := by positivity
    linarith
  have hlen_t : c2TimelineKeys.length = CACHE_SIZE := by
    simp [c2TimelineKeys]
  have hlen_a : c2Amps.length = CACHE_SIZE := by
    simp [c2Amps]
  have h0r : (0 : ℕ) ∈ List.range CACHE_SIZE := by
    rw [List.mem_range]
    exact cache_size_pos
  have hmem_t : ((1 : ℚ), (1 : ℕ)) ∈ c2TimelineKeys := by
    have hm := List.mem_map_of_mem (fun (i : ℕ) => ((i : ℚ) + 1, (1 : ℕ))) h0r
    simpa [c2TimelineKeys] using hm
  have hmem_a : (1 : ℚ) ∈ c2Amps := by
    have hm := List.mem_map_of_mem (fun (i : ℕ) => (i : ℚ) + 1) h0r
    simpa [c2Amps] using hm
  exact ⟨claim_cache_capacity_fifo.1 _ 5 44100 (by simp [FactoryState.init]),
    claim_cache_capacity_fifo.2.1 _ _ _ _ _ (by simp [GlobalState.init, FactoryState.init]),
    ⟨(claim_cache_capacity_fifo.2.2.1 _ _ hnd_t hlen_t).1,
     (claim_cache_capacity_fifo.2.2.1 _ _ hnd_t hlen_t).2 _ hmem_t⟩,
    ⟨(claim_cache_capacity_fifo.2.2.2 _ _ _ rfl hnd_a hlen_a).1,
     (claim_cache_capacity_fifo.2.2.2 _ _ _ rfl hnd_a hlen_a).2 _ hmem_a⟩⟩

/-- C3: for a positive duration and positive integer sampling rate whose
product is an integer `N > 1`, a newly constructed time axis has exactly
`N` samples, spans `[0, duration_seconds]` inclusive of both endpoints,
and its value at index `i` is `duration_seconds * i / (N - 1)`. -/
theorem claim_time_axis_linear :
    ∀ (d : ℚ) (r N : ℕ), 0 < d → 0 < r → (r : ℚ) * d = (N : ℚ) → 1 < N →
      (Timeline.make d r).timeline.length = N ∧
      (Timeline.make d r).timeline
        = (List.range N).map (fun (i : ℕ) => d * (i : ℚ) / ((N : ℚ) - 1)) ∧
      (Timeline.make d r).timeline.head? = some 0 ∧
      (Timeline.make d r).timeline.getLast? = some d ∧
      ∀ t ∈ (Timeline.make d r).timeline, 0 ≤ t ∧ t ≤ d := by
  intro d r N hd hr hprod hN
  have hfloor : (⌊(r : ℚ) * d⌋).toNat = N := by
    rw [hprod, Int.floor_natCast, Int.toNat_natCast]
  have htl : (Timeline.make d r).timeline
      = (List.range N).map (fun (i : ℕ) => d * (i : ℚ) / ((N : ℚ) - 1)) := by
    unfold Timeline.make linspace
    rw [hfloor]
  have hNq : (1 : ℚ) < (N : ℚ) := by exact_mod_cast hN
  refine ⟨?_, htl, ?_, ?_, ?_⟩
  · rw [htl]
    simp
  · rw [htl]
    obtain ⟨M, rfl⟩ : ∃ M, N = M + 2 := ⟨N - 2, by omega⟩
    rw [List.range_succ_eq_map]
    simp
  · rw [htl]
    obtain ⟨M, rfl⟩ : ∃ M, N = M + 2 := ⟨N - 2, by omega⟩
    rw [List.range_succ, List.map_append]
    simp only [List.map_singleton]
    rw [List.getLast?_concat]
    have hne : ((M : ℚ) + 1) ≠ 0 := by positivity
    have hcast : ((M + 2 : ℕ) : ℚ) - 1 = (M : ℚ) + 1 := by push_cast; ring
    have hcast2 : ((M + 1 : ℕ) : ℚ) = (M : ℚ) + 1 := by push_cast; ring
    rw [hcast, hcast2, mul_div_assoc, div_self hne, mul_one]
  · intro t ht
    rw [htl] at ht
    simp only [List.mem_map, List.mem_range] at ht
    obtain ⟨i, hiN, rfl⟩ := ht
    have hdenpos : (0 : ℚ) < (N : ℚ) - 1 := by linarith
    constructor
    · apply div_nonneg
      · exact mul_nonneg hd.le (Nat.cast_nonneg i)
      · linarith
    · rw [div_le_iff₀ hdenpos]
      have hle : (i : ℚ) ≤ (N : ℚ) - 1 := by
        have : (i : ℚ) + 1 ≤ (N : ℚ) := by exact_mod_cast hiN
        linarith
      calc d * (i : ℚ) ≤ d * ((N : ℚ) - 1) := mul_le_mul_of_nonneg_left hle hd.le
        _ = d * ((N : ℚ) - 1) := rfl

theorem claim_time_axis_linear_witness :
    (Timeline.make 2 3).timeline.length = 6 ∧
    (Timeline.make 2 3).timeline
      = (List.range 6).map (fun (i : ℕ) => 2 * (i : ℚ) / (((6 : ℕ) : ℚ) - 1)) ∧
    (Timeline.make 2 3).timeline.head? = some 0 ∧
    (Timeline.make 2 3).timeline.getLast? = some 2 ∧
    ∀ t ∈ (Timeline.make 2 3).timeline, 0 ≤ t ∧ t ≤ 2 :=
  claim_time_axis_linear 2 3 6 (by norm_num) (by norm_num) (by norm_num) (by norm_num)

/-- C8: for a positive duration and positive integer sampling rate whose
product is fractional, `get_time_axis` still succeeds (the model is total)
and the sample count is the floor of `sampling_rate * duration_seconds`,
a non-negative integer. -/
theorem claim_fractional_sample_count :
    ∀ (d : ℚ) (r : ℕ), 0 < d → 0 < r → (∀ z : ℤ, (r : ℚ) * d ≠ (z : ℚ)) →
      (Timeline.make d r).timeline.length = (⌊(r : ℚ) * d⌋).toNat ∧
      ((⌊(r : ℚ) * d⌋).toNat : ℤ) = ⌊(r : ℚ) * d⌋ := by
  intro d r hd hr hden
  constructor
  · unfold Timeline.make linspace
    simp
  · exact Int.toNat_of_nonneg (Int.floor_nonneg.2 (by positivity))

theorem claim_fractional_sample_count_witness :
    (Timeline.make (5 / 2) 3).timeline.length = (⌊((3 : ℕ) : ℚ) * (5 / 2)⌋).toNat ∧
    ((⌊((3 : ℕ) : ℚ) * (5 / 2)⌋).toNat : ℤ) = ⌊((3 : ℕ) : ℚ) * (5 / 2)⌋ :=
  claim_fractional_sample_count (5 / 2) 3 (by norm_num) (by norm_num) (by
    intro z hz
    push_cast at hz
    have h15 : (15 : ℚ) = 2 * (z : ℚ) := by linarith
    have h15z : (15 : ℤ) = 2 * z := by exact_mod_cast h15
    omega)

/-- C4: every wave produced by the factory stores, for each time-axis
value `t`, the truncating-cast-to-int16 of `amplitude * sin(2π * f * t)`;
the cast narrows modulo `2^16` (it wraps out-of-range values rather than
rounding or clamping), and the sample count equals the time axis's sample
count. -/
theorem claim_quantization :
    (∀ (tl : ℕ × Timeline) (note : String) (a fr : ℚ), noteFrequency note = some fr →
      ∃ w : SoundWave, SoundWave.make tl note a = .ok w ∧
        w.sound_wave = tl.2.timeline.map
          (fun (t : ℚ) => wrap16 (truncR ((a : ℝ)
            * Real.sin (2 * Real.pi * (fr : ℝ) * (t : ℝ))))) ∧
        w.sound_wave.length = tl.2.timeline.length) ∧
    (∀ (f : SoundWaveFactory) (g : GlobalState) (d a fr : ℚ) (s : String),
      lookup? (f.get_cache_key (.rat d) (.str s) (.rat a)) g.wv.cache = none →
      f.timeline_factory = some () → noteFrequency s = some fr →
      ∃ p, f.get_from_cache_or_add g (.rat d) (.str s) (.rat a) = .ok p ∧
        SoundWave.make (TimelineFactory.get_timeline g.tl d f.sampling_rate).1 s a
          = .ok p.1.2) ∧
    (∀ n : ℤ, wrap16 n % 2 ^ 16 = n % 2 ^ 16 ∧ -(2 ^ 15) ≤ wrap16 n ∧ wrap16 n < 2 ^ 15) ∧
    wrap16 (2 ^ 15) = -(2 ^ 15) := by
  refine ⟨?_, ?_, ?_, ?_⟩
  · intro tl note a fr hfr
    refine ⟨⟨note, a, tl, (tl.2.timeline.map
        (fun (t : ℚ) => (a : ℝ) * Real.sin (2 * Real.pi * (fr : ℝ) * (t : ℝ)))).map
        astype_int16⟩,
      ?_, ?_, ?_⟩
    · simp only [SoundWave.make, utils_get_soundwave, hfr]
    · simp only [List.map_map]
      rfl
    · simp
  · intro f g d a fr s hmiss htf hfr
    refine ⟨((g.wv.nextId, ⟨s, a, (TimelineFactory.get_timeline g.tl d f.sampling_rate).1,
        (((TimelineFactory.get_timeline g.tl d f.sampling_rate).1).2.timeline.map
          (fun (t : ℚ) => (a : ℝ) * Real.sin (2 * Real.pi * (fr : ℝ) * (t : ℝ)))).map
          astype_int16⟩),
      ⟨(TimelineFactory.get_timeline g.tl d f.sampling_rate).2,
        ⟨fifoInsert CACHE_SIZE g.wv.cache (f.get_cache_key (.rat d) (.str s) (.rat a))
            (g.wv.nextId, ⟨s, a, (TimelineFactory.get_timeline g.tl d f.sampling_rate).1,
              (((TimelineFactory.get_timeline g.tl d f.sampling_rate).1).2.timeline.map
                (fun (t : ℚ) => (a : ℝ)
                  * Real.sin (2 * Real.pi * (fr : ℝ) * (t : ℝ)))).map
                astype_int16⟩),
          g.wv.nextId + 1⟩⟩), ?_, ?_⟩
    · simp only [SoundWaveFactory.get_from_cache_or_add, hmiss, htf, SoundWave.make,
        utils_get_soundwave, hfr]
    · simp only [SoundWave.make, utils_get_soundwave, hfr]
  · intro n
    have h16 : (2 : ℤ) ^ 16 = 65536 := by norm_num
    have h15 : (2 : ℤ) ^ 15 = 32768 := by norm_num
    refine ⟨?_, ?_, ?_⟩ <;> simp only [wrap16, h16, h15] <;> omega
  · have h16 : (2 : ℤ) ^ 16 = 65536 := by norm_num
    have h15 : (2 : ℤ) ^ 15 = 32768 := by norm_num
    simp only [wrap16, h16, h15]
    norm_num

theorem claim_quantization_witness :
    (∃ w : SoundWave,
      SoundWave.make ((0 : ℕ), (⟨1, 2, [0, 1]⟩ : Timeline)) ("a4") 100 = .ok w ∧
        w.sound_wave = (((0 : ℕ), (⟨1, 2, [0, 1]⟩ : Timeline)) : ℕ × Timeline).2.timeline.map
          (fun (t : ℚ) => wrap16 (truncR (((100 : ℚ) : ℝ)
            * Real.sin (2 * Real.pi * ((440 : ℚ) : ℝ) * (t : ℝ))))) ∧
        w.sound_wave.length
          = (((0 : ℕ), (⟨1, 2, [0, 1]⟩ : Timeline)) : ℕ × Timeline).2.timeline.length) ∧
    (∃ p, (SoundWaveFactory.make 44100 5 8192 none).get_from_cache_or_add GlobalState.init
        (.rat 5) (.str ("a4")) (.rat 8192) = .ok p ∧
      SoundWave.make (TimelineFactory.get_timeline GlobalState.init.tl 5
          (SoundWaveFactory.make 44100 5 8192 none).sampling_rate).1 ("a4") 8192
        = .ok p.1.2) ∧
    (wrap16 40000 % 2 ^ 16 = 40000 % 2 ^ 16 ∧ -(2 ^ 15) ≤ wrap16 40000 ∧
      wrap16 40000 < 2 ^ 15) ∧
    wrap16 (2 ^ 15) = -(2 ^ 15) :=
  ⟨claim_quantization.1 _ ("a4") 100 440 rfl,
   claim_quantization.2.1 _ _ 5 8192 440 ("a4") rfl rfl rfl,
   claim_quantization.2.2.1 40000,
   claim_quantization.2.2.2⟩

/-- C10: constructing a `SoundWaveFactory` with an explicitly supplied
non-None `timeline_factory` argument leaves the attribute unassigned (the
argument is discarded), so any `get_soundwave` call that misses the wave
cache fails with an `AttributeError`; only construction with the argument
omitted or `None` yields a factory whose `get_soundwave` succeeds on a
miss. -/
theorem claim_timeline_factory_discarded :
    (∀ (r : ℕ) (dd ma : ℚ) (tf : Unit),
        (SoundWaveFactory.make r dd ma (some tf)).timeline_factory = none) ∧
    (∀ (r : ℕ) (dd ma : ℚ) (tf : Unit) (g : GlobalState) (d note amp : PyVal),
        lookup? ((SoundWaveFactory.make r dd ma (some tf)).get_cache_key d note amp)
          g.wv.cache = none →
        (SoundWaveFactory.make r dd ma (some tf)).get_from_cache_or_add g d note amp
          = .error .attributeError) ∧
    (∀ (r : ℕ) (dd ma : ℚ),
        (SoundWaveFactory.make r dd ma none).timeline_factory = some ()) ∧
    (∀ (r : ℕ) (dd ma d a fr : ℚ) (s : String) (g : GlobalState),
        noteFrequency s = some fr →
        ∃ p, (SoundWaveFactory.make r dd ma none).get_from_cache_or_add g (.rat d)
          (.str s) (.rat a) = .ok p) := by
  refine ⟨?_, ?_, ?_, ?_⟩
  · intro r dd ma tf
    rfl
  · intro r dd ma tf g d note amp hmiss
    have htf : (SoundWaveFactory.make r dd ma (some tf)).timeline_factory = none := rfl
    simp only [SoundWaveFactory.get_from_cache_or_add, hmiss, htf]
  · intro r dd ma
    rfl
  · intro r dd ma d a fr s g hfr
    exact get_from_cache_or_add_ok_exists rfl hfr

theorem claim_timeline_factory_discarded_witness :
    ((SoundWaveFactory.make 44100 5 8192 (some ())).timeline_factory = none) ∧
    ((SoundWaveFactory.make 44100 5 8192 (some ())).get_from_cache_or_add GlobalState.init
        (.rat 5) (.str ("a4")) (.rat 8192) = .error .attributeError) ∧
    ((SoundWaveFactory.make 44100 5 8192 none).timeline_factory = some ()) ∧
    (∃ p, (SoundWaveFactory.make 44100 5 8192 none).get_from_cache_or_add GlobalState.init
        (.rat 5) (.str ("a4")) (.rat 8192) = .ok p) :=
  ⟨claim_timeline_factory_discarded.1 44100 5 8192 (),
   claim_timeline_factory_discarded.2.1 44100 5 8192 () GlobalState.init _ _ _ rfl,
   claim_timeline_factory_discarded.2.2.1 44100 5 8192,
   claim_timeline_factory_discarded.2.2.2 44100 5 8192 5 8192 440 ("a4")
     GlobalState.init rfl⟩

/-- C6 (amended): calling `normalize_sound_waves` on an empty sequence
fails with a raw division-by-zero error from computing the average
amplitude (`sum(...) / len(...)`), not with a dedicated
`EmptyInputError`, which the source never defines or raises. -/
theorem claim_normalize_empty_zero_division :
    ∀ (f : SoundWaveFactory) (g : GlobalState),
      f.normalize_sound_waves g [] = .error .zeroDivisionError := by
  intro f g
  rfl

/-- C6 counterexample: at the concrete empty input the failure is a
`ZeroDivisionError`, not the `EmptyInputError` the claim states. -/
theorem claim_normalize_empty_counterexample :
    (SoundWaveFactory.make 44100 5 8192 none).normalize_sound_waves GlobalState.init []
      ≠ .error .emptyInputError ∧
    (SoundWaveFactory.make 44100 5 8192 none).normalize_sound_waves GlobalState.init []
      = .error .zeroDivisionError := by
  have hz : (SoundWaveFactory.make 44100 5 8192 none).normalize_sound_waves
      GlobalState.init [] = .error .zeroDivisionError := rfl
  refine ⟨?_, hz⟩
  rw [hz]
  intro h
  injection h with h2
  exact PyError.noConfusion h2

/-- C5 (code evaluated at the failing input): `normalize_sound_waves`
calls `get_soundwave(sound_wave.timeline, sound_wave.note, new_amplitude)`
positionally, binding the `Timeline` object to the `note` parameter and
the note string to `duration_seconds`; on the (inevitable) cache miss the
string duration makes the regeneration raise instead of producing a wave
with the original note and time axis, for any averaged amplitude. -/
theorem claim_normalize_misbinds_arguments :
    (SoundWaveFactory.make 44100 5 8192 none).normalize_sound_waves GlobalState.init [w_a4]
      = .error .typeError ∧
    (∀ avg : ℚ, (SoundWaveFactory.make 44100 5 8192 none).get_soundwave GlobalState.init
        (.timelineObj w_a4.timeline.1) (some (.str w_a4.note)) (some (.rat avg))
      = .error .typeError) := by
  exact ⟨rfl, fun avg => rfl⟩

/-- C7: for every save mode other than `SAVE_TYPE_TXT` and
`SAVE_TYPE_WAV`, `save_wave` fails with the invalid-save-mode
`ValueError`, and the failure already occurs in the file-name derivation,
before any file content is produced. -/
theorem claim_invalid_save_mode :
    ∀ (f : SoundWaveFactory) (w : SoundWave) (name : Option String) (ty : String),
      ty ≠ SoundWaveFactory.SAVE_TYPE_TXT → ty ≠ SoundWaveFactory.SAVE_TYPE_WAV →
      f.save_wave w name ty = .error .valueError ∧
      SoundWaveFactory.generate_file_name w name ty = .error .valueError := by
  intro f w name ty h1 h2
  have hg : SoundWaveFactory.generate_file_name w name ty = .error .valueError := by
    unfold SoundWaveFactory.generate_file_name
    rw [if_neg h1, if_neg h2]
  refine ⟨?_, hg⟩
  unfold SoundWaveFactory.save_wave
  rw [hg]

theorem claim_invalid_save_mode_witness :
    (SoundWaveFactory.make 44100 5 8192 none).save_wave w_a4 none ("MP3")
      = .error .valueError ∧
    SoundWaveFactory.generate_file_name w_a4 none ("MP3") = .error .valueError :=
  claim_invalid_save_mode _ w_a4 none ("MP3") (by decide) (by decide)

theorem replaceHash_append (s t : String) :
    replaceHashWithS (s ++ t) = replaceHashWithS s ++ replaceHashWithS t := by
  rcases s with ⟨ds⟩
  rcases t with ⟨dt⟩
  show String.mk ((ds ++ dt).map (fun c => if c = '#' then 's' else c))
      = String.mk (List.map (fun c => if c = '#' then 's' else c) ds
          ++ List.map (fun c => if c = '#' then 's' else c) dt)
  rw [List.map_append]

/-- C9: the generated file path is the fixed per-mode directory, then the
file name, then the per-mode extension; with no caller-supplied name the
name is derived from the wave's note, duration and amplitude; every `#`
in the name is replaced by `s`, so a "c#5" wave yields a path containing
"cs5" and not "c#5". -/
theorem claim_file_naming :
    (∀ (w : SoundWave) (name : String), name ≠ "" →
        SoundWaveFactory.generate_file_name w (some name) SoundWaveFactory.SAVE_TYPE_TXT
          = .ok ("sound_text_files/" ++ replaceHashWithS name ++ ".txt") ∧
        SoundWaveFactory.generate_file_name w (some name) SoundWaveFactory.SAVE_TYPE_WAV
          = .ok ("sound_wav_files/" ++ replaceHashWithS name ++ ".wav")) ∧
    (∀ w : SoundWave,
        SoundWaveFactory.generate_file_name w none SoundWaveFactory.SAVE_TYPE_TXT
          = .ok ("sound_text_files/"
              ++ replaceHashWithS ("sound_wave_" ++ w.note ++ "_"
                ++ ratStr w.timeline.2.duration_seconds ++ "_" ++ ratStr w.amplitude)
              ++ ".txt")) ∧
    (SoundWaveFactory.generate_file_name w_csharp5 none SoundWaveFactory.SAVE_TYPE_TXT
        = .ok ("sound_text_files/sound_wave_cs5_5_100.txt") ∧
      strContains ("sound_text_files/sound_wave_cs5_5_100.txt") ("cs5") = true ∧
      strContains ("sound_text_files/sound_wave_cs5_5_100.txt") ("c#5") = false) := by
  have hctxt : replaceHashWithS ("sound_text_files/") = ("sound_text_files/" : String) := rfl
  have hcwav : replaceHashWithS ("sound_wav_files/") = ("sound_wav_files/" : String) := rfl
  have hetxt : replaceHashWithS (".txt") = (".txt" : String) := rfl
  have hewav : replaceHashWithS (".wav") = (".wav" : String) := rfl
  refine ⟨?_, ?_, ?_, ?_, ?_⟩
  · intro w name hne
    constructor
    · simp only [SoundWaveFactory.generate_file_name, Option.getD_some]
      rw [if_neg hne]
      simp only [if_true]
      rw [replaceHash_append, replaceHash_append, hctxt, hetxt]
    · simp only [SoundWaveFactory.generate_file_name, Option.getD_some]
      rw [if_neg hne]
      rw [if_neg (show SoundWaveFactory.SAVE_TYPE_WAV ≠ SoundWaveFactory.SAVE_TYPE_TXT
        from by decide)]
      simp only [if_true]
      rw [replaceHash_append, replaceHash_append, hcwav, hewav]
  · intro w
    simp only [SoundWaveFactory.generate_file_name, Option.getD_none, if_true]
    rw [replaceHash_append, replaceHash_append, hctxt, hetxt]
  · rfl
  · decide
  · decide

theorem claim_file_naming_witness :
    (SoundWaveFactory.generate_file_name w_a4 (some ("x#y")) SoundWaveFactory.SAVE_TYPE_TXT
        = .ok ("sound_text_files/" ++ replaceHashWithS ("x#y") ++ ".txt") ∧
      SoundWaveFactory.generate_file_name w_a4 (some ("x#y")) SoundWaveFactory.SAVE_TYPE_WAV
        = .ok ("sound_wav_files/" ++ replaceHashWithS ("x#y") ++ ".wav")) ∧
    (SoundWaveFactory.generate_file_name w_a4 none SoundWaveFactory.SAVE_TYPE_TXT
        = .ok ("sound_text_files/"
            ++ replaceHashWithS ("sound_wave_" ++ w_a4.note ++ "_"
              ++ ratStr w_a4.timeline.2.duration_seconds ++ "_" ++ ratStr w_a4.amplitude)
            ++ ".txt")) ∧
    strContains ("sound_text_files/sound_wave_cs5_5_100.txt") ("cs5") = true :=
  ⟨claim_file_naming.1 w_a4 ("x#y") (by decide),
   claim_file_naming.2.1 w_a4,
   claim_file_naming.2.2.2.1⟩
